import Mathlib

/-!
Verification of the TaskQuest gateway (`server/routes.ts`): the `proxyToApi`
request forwarder with its feed-enrichment pass, and the `/api/xp-suggest`
endpoint. JSON values are embedded as the inductive `Jval`; the JavaScript
notions the code relies on (truthiness, property access, optional chaining,
object spread, `||` defaulting, `String.prototype.replace` of the first
occurrence, `Set` deduplication) are modelled explicitly below, each next to
the source construct it embeds.
-/

/-- A parsed JSON value, as produced by `JSON.parse` / `response.json()`.
Numbers are modelled as integers: every numeric literal the gateway logic
touches (`suggestedXp`, `rewardXp`, status codes) is integral. -/
inductive Jval where
  | jnull
  | jbool (b : Bool)
  | jnum (n : Int)
  | jstr (s : String)
  | jarr (xs : List Jval)
  | jobj (fields : List (String × Jval))

namespace Jval

mutual

/-- Structural equality of JSON values (used for `Set` dedup and decidability). -/
def beq : Jval → Jval → Bool
  | .jnull, .jnull => true
  | .jbool a, .jbool b => a == b
  | .jnum a, .jnum b => a == b
  | .jstr a, .jstr b => a == b
  | .jarr xs, .jarr ys => beqArr xs ys
  | .jobj fs, .jobj gs => beqObj fs gs
  | _, _ => false

def beqArr : List Jval → List Jval → Bool
  | [], [] => true
  | x :: xs, y :: ys => beq x y && beqArr xs ys
  | _, _ => false

def beqObj : List (String × Jval) → List (String × Jval) → Bool
  | [], [] => true
  | (k, v) :: fs, (k2, v2) :: gs => k == k2 && beq v v2 && beqObj fs gs
  | _, _ => false

end

instance : BEq Jval := ⟨beq⟩

mutual

theorem beq_iff : ∀ a b : Jval, beq a b = true ↔ a = b
  | .jnull, .jnull => by simp [beq]
  | .jbool a, .jbool b => by simp [beq]
  | .jnum a, .jnum b => by simp [beq]
  | .jstr a, .jstr b => by simp [beq]
  | .jarr xs, .jarr ys => by simp [beq, beqArr_iff xs ys]
  | .jobj fs, .jobj gs => by simp [beq, beqObj_iff fs gs]
  | .jnull, .jbool _ => by simp [beq]
  | .jnull, .jnum _ => by simp [beq]
  | .jnull, .jstr _ => by simp [beq]
  | .jnull, .jarr _ => by simp [beq]
  | .jnull, .jobj _ => by simp [beq]
  | .jbool _, .jnull => by simp [beq]
  | .jbool _, .jnum _ => by simp [beq]
  | .jbool _, .jstr _ => by simp [beq]
  | .jbool _, .jarr _ => by simp [beq]
  | .jbool _, .jobj _ => by simp [beq]
  | .jnum _, .jnull => by simp [beq]
  | .jnum _, .jbool _ => by simp [beq]
  | .jnum _, .jstr _ => by simp [beq]
  | .jnum _, .jarr _ => by simp [beq]
  | .jnum _, .jobj _ => by simp [beq]
  | .jstr _, .jnull => by simp [beq]
  | .jstr _, .jbool _ => by simp [beq]
  | .jstr _, .jnum _ => by simp [beq]
  | .jstr _, .jarr _ => by simp [beq]
  | .jstr _, .jobj _ => by simp [beq]
  | .jarr _, .jnull => by simp [beq]
  | .jarr _, .jbool _ => by simp [beq]
  | .jarr _, .jnum _ => by simp [beq]
  | .jarr _, .jstr _ => by simp [beq]
  | .jarr _, .jobj _ => by simp [beq]
  | .jobj _, .jnull => by simp [beq]
  | .jobj _, .jbool _ => by simp [beq]
  | .jobj _, .jnum _ => by simp [beq]
  | .jobj _, .jstr _ => by simp [beq]
  | .jobj _, .jarr _ => by simp [beq]

theorem beqArr_iff : ∀ xs ys : List Jval, beqArr xs ys = true ↔ xs = ys
  | [], [] => by simp [beqArr]
  | x :: xs, y :: ys => by simp [beqArr, beq_iff x y, beqArr_iff xs ys]
  | [], _ :: _ => by simp [beqArr]
  | _ :: _, [] => by simp [beqArr]

theorem beqObj_iff : ∀ fs gs : List (String × Jval), beqObj fs gs = true ↔ fs = gs
  | [], [] => by simp [beqObj]
  | (k, v) :: fs, (k2, v2) :: gs => by
      simp [beqObj, beq_iff v v2, beqObj_iff fs gs, and_assoc]
  | [], _ :: _ => by simp [beqObj]
  | _ :: _, [] => by simp [beqObj]

end

instance : LawfulBEq Jval where
  eq_of_beq h := (beq_iff _ _).mp h
  rfl := (beq_iff _ _).mpr rfl

instance : DecidableEq Jval := fun a b =>
  decidable_of_iff (beq a b = true) (beq_iff a b)

/-- JavaScript truthiness of a JSON value (`if (v)`, `v && w`, `!v`). -/
def truthy : Jval → Bool
  | .jnull => false
  | .jbool b => b
  | .jnum n => n != 0
  | .jstr s => s != ""
  | .jarr _ => true
  | .jobj _ => true

/-- `true` exactly for `jobj`; JS `typeof v === "object"` minus null/arrays. -/
def isObj : Jval → Bool
  | .jobj _ => true
  | _ => false

end Jval

/-- Truthiness lifted to a possibly-`undefined` value (`none` = `undefined`). -/
def truthyO : Option Jval → Bool
  | some v => v.truthy
  | none => false

/-- First-match lookup in an object's field list (JS property read on an
object; `JSON.parse` output has unique keys, so first match is the value). -/
def getField : List (String × Jval) → String → Option Jval
  | [], _ => none
  | (k, v) :: rest, key => if k = key then some v else getField rest key

/-- JS property access `v.k` on a non-null value: objects look the key up,
other primitives yield `undefined` for the (non-index) keys the gateway reads. -/
def propOf : Jval → String → Option Jval
  | .jobj fs, k => getField fs k
  | _, _ => none

/-- Optional chaining `o?.k`: `undefined`/`null` short-circuit to `undefined`. -/
def chainProp (o : Option Jval) (k : String) : Option Jval :=
  match o with
  | none => none
  | some v => propOf v k

/-- `item.payload?.k` (and, where the payload is already known truthy,
`item.payload.k`). -/
def payloadProp (item : Jval) (k : String) : Option Jval :=
  chainProp (propOf item "payload") k

/-- JS `x || d` on a possibly-undefined `x`: keep `x` when truthy, else `d`. -/
def jsOr (o : Option Jval) (d : Jval) : Jval :=
  match o with
  | some v => if v.truthy then v else d
  | none => d

/-- Property assignment / object-literal update: replace the first binding of
`key` in place (JS keeps the original key position), appending when absent. -/
def setKey : List (String × Jval) → String → Jval → List (String × Jval)
  | [], key, v => [(key, v)]
  | (k, w) :: rest, key, v =>
      if k = key then (key, v) :: rest else (k, w) :: setKey rest key v

/-- The fields contributed by `{...p}` for the payload shapes the feed carries:
an absent/null payload spreads to nothing, an object spreads to its fields.
(JS additionally spreads strings/arrays to index keys; the feed's `payload` is
an object or absent, and the frame theorems assume as much.) -/
def spreadFields : Option Jval → List (String × Jval)
  | some (.jobj fs) => fs
  | _ => []

/-- JS template-literal coercion `${tid}` of the values interpolated into the
task-detail URL. Composite values coerce via `Array.prototype.join` /
`Object.prototype.toString` in JS; feed task ids are strings (or numbers), so
the composite cases are collapsed to their `jobj` form and `""`. -/
def jsToString : Jval → String
  | .jnull => "null"
  | .jbool b => if b then "true" else "false"
  | .jnum n => toString n
  | .jstr s => s
  | .jarr _ => ""
  | .jobj _ => "[object Object]"

/-- `[...new Set(l)]`: keep the first occurrence of each value, in order. -/
def jsSetDedupAux (seen : List Jval) : List Jval → List Jval
  | [] => []
  | x :: xs =>
      if seen.contains x then jsSetDedupAux seen xs
      else x :: jsSetDedupAux (x :: seen) xs

def jsSetDedup (l : List Jval) : List Jval :=
  jsSetDedupAux [] l

theorem mem_jsSetDedupAux (x : Jval) (l seen : List Jval) :
    x ∈ jsSetDedupAux seen l ↔ x ∈ l ∧ x ∉ seen := by
  induction l generalizing seen with
  | nil => simp [jsSetDedupAux]
  | cons y ys ih =>
      by_cases hy : seen.contains y
      · have hy' : y ∈ seen := by simpa using hy
        simp only [jsSetDedupAux, if_pos hy, ih]
        constructor
        · rintro ⟨h1, h2⟩; exact ⟨List.mem_cons_of_mem _ h1, h2⟩
        · rintro ⟨h1, h2⟩
          rcases List.mem_cons.mp h1 with rfl | h1
          · exact absurd hy' h2
          · exact ⟨h1, h2⟩
      · have hy' : y ∉ seen := by simpa using hy
        simp only [jsSetDedupAux, if_neg hy, List.mem_cons, ih]
        by_cases hxy : x = y
        · subst hxy; simp [hy']
        · simp [hxy]

theorem mem_jsSetDedup (x : Jval) (l : List Jval) :
    x ∈ jsSetDedup l ↔ x ∈ l := by
  simp [jsSetDedup, mem_jsSetDedupAux]

theorem nodup_jsSetDedupAux (l : List Jval) :
    ∀ seen, (jsSetDedupAux seen l).Nodup := by
  induction l with
  | nil => intro seen; simp [jsSetDedupAux]
  | cons y ys ih =>
      intro seen
      by_cases hy : seen.contains y
      · simp only [jsSetDedupAux, if_pos hy]
        exact ih seen
      · simp only [jsSetDedupAux, if_neg hy, List.nodup_cons]
        refine ⟨fun hmem => ?_, ih (y :: seen)⟩
        exact ((mem_jsSetDedupAux y ys (y :: seen)).mp hmem).2 (List.mem_cons_self y seen)

theorem nodup_jsSetDedup (l : List Jval) : (jsSetDedup l).Nodup :=
  nodup_jsSetDedupAux l []

/-- The filter selecting feed items that need enrichment:
`item.taskId && item.payload && !item.payload.taskTitle && !item.payload.title`.
(The plain `item.payload.taskTitle` reads are guarded by the truthiness of
`item.payload`, so `chainProp` coincides with them there.) -/
def needsEnrich (item : Jval) : Bool :=
  truthyO (propOf item "taskId")
  && truthyO (propOf item "payload")
  && !truthyO (payloadProp item "taskTitle")
  && !truthyO (payloadProp item "title")

/-- `needsEnrich.map(item => item.taskId)`: the referenced task ids; the
default is unreachable because a selected item has a (truthy) task id. -/
def taskIdValsOf (needs : List Jval) : List Jval :=
  needs.map fun it => (propOf it "taskId").getD .jnull

/-- The settled `taskDetails` record, keyed as JS object keys (strings).
`fetchTask` is the upstream oracle for `GET /v1/tasks/<tid>`: `some body` for
an ok response with body `body`, `none` when the fetch threw or returned a
non-ok status — in both cases the per-task
`try { … if (taskRes.ok) { taskDetails[tid] = … } } catch {}` stores nothing. -/
def buildTaskDetails (fetchTask : String → Option Jval) (taskIds : List Jval) :
    String → Option Jval :=
  fun key => if taskIds.any fun tid => jsToString tid == key then fetchTask key else none

/-- The merged payload `{...item.payload, taskTitle: task.title || "",
rewardXp: task.rewardXp || 0, dueAt: task.dueAt || null}`. -/
def mergedPayload (payload : Option Jval) (task : Jval) : Jval :=
  .jobj (setKey (setKey (setKey (spreadFields payload)
    "taskTitle" (jsOr (propOf task "title") (.jstr "")))
    "rewardXp" (jsOr (propOf task "rewardXp") (.jnum 0)))
    "dueAt" (jsOr (propOf task "dueAt") .jnull))

/-- `taskDetails[item.taskId]` (the id is coerced to a string object key). -/
def detailOf (td : String → Option Jval) : Option Jval → Option Jval
  | some tid => td (jsToString tid)
  | none => none

/-- One iteration of the merge loop: replace `item.payload` when
`item.taskId && taskDetails[item.taskId] && !item.payload?.taskTitle &&
!item.payload?.title`; any other item (and any non-object) is left as is. -/
def enrichItem (td : String → Option Jval) : Jval → Jval
  | .jobj fs =>
      if truthyO (getField fs "taskId")
          && truthyO (detailOf td (getField fs "taskId"))
          && !truthyO (chainProp (getField fs "payload") "taskTitle")
          && !truthyO (chainProp (getField fs "payload") "title") then
        match detailOf td (getField fs "taskId") with
        | some task => .jobj (setKey fs "payload" (mergedPayload (getField fs "payload") task))
        | none => .jobj fs
      else .jobj fs
  | item => item

/-- The whole enrichment pass over `data.data`: filter, dedup the ids, settle
the concurrent task fetches into `taskDetails`, then merge over the original
list in its original order. (The concurrent fetches commute: each id writes
only its own key, so the settled record is order-independent.) -/
def enrichFeedData (fetchTask : String → Option Jval) (items : List Jval) : List Jval :=
  let needs := items.filter needsEnrich
  if needs.length > 0 then
    items.map (enrichItem (buildTaskDetails fetchTask (jsSetDedup (taskIdValsOf needs))))
  else items

/-- The task ids for which a task-detail fetch is issued (one `fetch` per
element of the deduplicated list). -/
def issuedTaskFetches (items : List Jval) : List Jval :=
  let needs := items.filter needsEnrich
  if needs.length > 0 then jsSetDedup (taskIdValsOf needs) else []

/-- The settled `taskDetails` lookup the merge loop reads for a given feed. -/
def tdOf (fetchTask : String → Option Jval) (items : List Jval) : String → Option Jval :=
  buildTaskDetails fetchTask (jsSetDedup (taskIdValsOf (items.filter needsEnrich)))

theorem detailOf_none (td : String → Option Jval) (h : ∀ k, td k = none) :
    ∀ o, detailOf td o = none
  | some _ => h _
  | none => rfl

theorem enrichItem_of_none (td : String → Option Jval) (h : ∀ k, td k = none) :
    ∀ item, enrichItem td item = item
  | .jobj fs => by simp [enrichItem, detailOf_none td h, truthyO]
  | .jnull => rfl
  | .jbool _ => rfl
  | .jnum _ => rfl
  | .jstr _ => rfl
  | .jarr _ => rfl

theorem map_enrichItem_none (td : String → Option Jval) (h : ∀ k, td k = none) :
    ∀ l : List Jval, l.map (enrichItem td) = l
  | [] => rfl
  | x :: xs => by
      rw [List.map_cons, enrichItem_of_none td h, map_enrichItem_none td h]

theorem buildTaskDetails_nil (f : String → Option Jval) (k : String) :
    buildTaskDetails f [] k = none := rfl

theorem enrichFeedData_eq_map (f : String → Option Jval) (items : List Jval) :
    enrichFeedData f items = items.map (enrichItem (tdOf f items)) := by
  by_cases h : (items.filter needsEnrich).length > 0
  · simp only [enrichFeedData, tdOf, if_pos h]
  · have hnil : items.filter needsEnrich = [] :=
      List.length_eq_zero.mp (Nat.eq_zero_of_not_pos h)
    simp only [enrichFeedData, tdOf, if_neg h, hnil]
    exact (map_enrichItem_none _ (buildTaskDetails_nil f) items).symm

theorem enrichFeedData_length (f : String → Option Jval) (items : List Jval) :
    (enrichFeedData f items).length = items.length := by
  rw [enrichFeedData_eq_map, List.length_map]

theorem enrichFeedData_getElem (f : String → Option Jval) (items : List Jval)
    (i : Nat) (it : Jval) (h : items[i]? = some it) :
    (enrichFeedData f items)[i]? = some (enrichItem (tdOf f items) it) := by
  rw [enrichFeedData_eq_map, List.getElem?_map, h]
  rfl

theorem getField_setKey_self (fs : List (String × Jval)) (key : String) (v : Jval) :
    getField (setKey fs key v) key = some v := by
  induction fs with
  | nil => simp [setKey, getField]
  | cons p rest ih =>
      obtain ⟨k, w⟩ := p
      by_cases hk : k = key
      · simp [setKey, hk, getField]
      · simp [setKey, hk, getField, ih]

theorem getField_setKey_ne (fs : List (String × Jval)) (key k2 : String) (v : Jval)
    (h : k2 ≠ key) : getField (setKey fs key v) k2 = getField fs k2 := by
  have hne : key ≠ k2 := fun hh => h hh.symm
  induction fs with
  | nil => simp [setKey, getField, hne]
  | cons p rest ih =>
      obtain ⟨k, w⟩ := p
      by_cases hk : k = key
      · subst hk
        simp [setKey, getField, hne]
      · simp [setKey, hk, getField, ih]

/-- An item whose payload carries a truthy `taskTitle` or `title` is left
untouched by the merge loop (non-objects are untouched too). -/
theorem enrichItem_of_truthy_title (td : String → Option Jval) (item : Jval)
    (h : truthyO (payloadProp item "taskTitle") = true ∨
         truthyO (payloadProp item "title") = true) :
    enrichItem td item = item := by
  cases item with
  | jobj fs =>
      rcases h with h | h <;>
        · simp only [payloadProp, propOf] at h
          simp [enrichItem, h]
  | jnull => rfl
  | jbool b => rfl
  | jnum n => rfl
  | jstr s => rfl
  | jarr xs => rfl

/-- An item whose task id resolved to no stored detail is left untouched. -/
theorem enrichItem_of_detail_none (td : String → Option Jval) (item : Jval)
    (h : detailOf td (propOf item "taskId") = none) :
    enrichItem td item = item := by
  cases item with
  | jobj fs =>
      have h' : detailOf td (getField fs "taskId") = none := h
      simp [enrichItem, h', truthyO]
  | jnull => rfl
  | jbool b => rfl
  | jnum n => rfl
  | jstr s => rfl
  | jarr xs => rfl

/-- The merge branch: a qualifying item whose task id has a truthy stored
detail gets the merged payload. -/
theorem enrichItem_enrich (td : String → Option Jval) (fs : List (String × Jval))
    (tid task : Jval)
    (hid : getField fs "taskId" = some tid)
    (htid : tid.truthy = true)
    (hdet : td (jsToString tid) = some task)
    (htask : task.truthy = true)
    (h1 : truthyO (chainProp (getField fs "payload") "taskTitle") = false)
    (h2 : truthyO (chainProp (getField fs "payload") "title") = false) :
    enrichItem td (.jobj fs) =
      .jobj (setKey fs "payload" (mergedPayload (getField fs "payload") task)) := by
  have hta : truthyO (getField fs "taskId") = true := by rw [hid]; exact htid
  have hdet' : detailOf td (getField fs "taskId") = some task := by rw [hid]; exact hdet
  have hdt : truthyO (detailOf td (getField fs "taskId")) = true := by
    rw [hdet']; exact htask
  simp [enrichItem, hta, hdt, h1, h2, hdet']
  intro hcontra
  rw [show truthyO (some task) = task.truthy from rfl, htask] at hcontra
  simp at hcontra

theorem taskId_mem_dedup (items : List Jval) (it tid : Jval)
    (hmem : it ∈ items) (hq : needsEnrich it = true)
    (hid : propOf it "taskId" = some tid) :
    tid ∈ jsSetDedup (taskIdValsOf (items.filter needsEnrich)) := by
  rw [mem_jsSetDedup]
  refine List.mem_map.mpr ⟨it, List.mem_filter.mpr ⟨hmem, hq⟩, ?_⟩
  simp [hid]

theorem tdOf_eq_fetch (f : String → Option Jval) (items : List Jval) (tid : Jval)
    (h : tid ∈ jsSetDedup (taskIdValsOf (items.filter needsEnrich))) :
    tdOf f items (jsToString tid) = f (jsToString tid) := by
  unfold tdOf buildTaskDetails
  rw [if_pos]
  exact List.any_eq_true.mpr ⟨tid, h, by simp⟩

theorem tdOf_none_of_fetch_none (f : String → Option Jval) (items : List Jval)
    (key : String) (h : f key = none) : tdOf f items key = none := by
  unfold tdOf buildTaskDetails
  split <;> simp [h]

/-- `pat` occurs as a contiguous substring (JS `String.prototype.includes`). -/
def hasSubstr : List Char → List Char → Bool
  | [], pat => pat.isEmpty
  | c :: rest, pat => pat.isPrefixOf (c :: rest) || hasSubstr rest pat

def jsIncludes (s pat : String) : Bool :=
  hasSubstr s.toList pat.toList

/-- JS `String.prototype.startsWith`. -/
def jsStartsWith (s pre : String) : Bool :=
  pre.toList.isPrefixOf s.toList

/-- JS `String.prototype.replace(pat, rep)` with a string pattern: replace the
first occurrence only, leave the string unchanged when the pattern is absent. -/
def listReplaceFirst : List Char → List Char → List Char → List Char
  | [], _, _ => []
  | c :: cs, pat, rep =>
      if pat.isPrefixOf (c :: cs) then rep ++ (c :: cs).drop pat.length
      else c :: listReplaceFirst cs pat rep

def jsReplaceFirst (s pat rep : String) : String :=
  String.mk (listReplaceFirst s.toList pat.toList rep.toList)

/-- The suffix after the first occurrence of `c`, when any. -/
def afterFirstChar (c : Char) : List Char → Option (List Char)
  | [] => none
  | x :: xs => if x = c then some xs else afterFirstChar c xs

/-- `req.originalUrl.includes("?") ? "?" + originalUrl.split("?").slice(1).join("?") : ""`:
everything from the first `?` on, or the empty string. -/
def queryStringOf (u : String) : String :=
  match afterFirstChar '?' u.toList with
  | some rest => "?" ++ String.mk rest
  | none => ""

/-- The inbound Express request, as `proxyToApi` reads it: `req.method`,
`req.path`, `req.originalUrl`, `req.headers.authorization` (`none` when the
header is absent) and the middleware-parsed JSON `req.body` (`none` when
undefined). -/
structure Req where
  method : String
  path : String
  originalUrl : String
  authorization : Option String
  body : Option Jval
deriving DecidableEq

/-- The outbound upstream request assembled by `proxyToApi`: target URL,
method, the fixed `Content-Type` header, the optional forwarded
`Authorization` header, and the optional JSON body. -/
structure OutboundReq where
  url : String
  method : String
  contentType : String
  auth : Option String
  body : Option Jval
deriving DecidableEq

/-- `Object.keys(v).length` for the middleware-parsed body: object field
count, array length, string length (index keys), 0 for other primitives. -/
def jsKeysLen : Jval → Nat
  | .jobj fs => fs.length
  | .jarr xs => xs.length
  | .jstr s => s.length
  | _ => 0

/-- Assembly of the outbound request (the part of `proxyToApi` before the
`fetch`): path rewrite `req.path.replace("/api/v1", "/v1")`, query-string
pass-through, conditional `Authorization` forwarding, and the body attached
for non-GET/HEAD/OPTIONS methods when `req.body && Object.keys(req.body).length > 0`. -/
def buildOutbound (apiUrl : String) (req : Req) : OutboundReq :=
  let path := jsReplaceFirst req.path "/api/v1" "/v1"
  { url := apiUrl ++ path ++ queryStringOf req.originalUrl
    method := req.method
    contentType := "application/json"
    auth := match req.authorization with
      | some a => if a = "" then none else some a
      | none => none
    body := if !(["GET", "HEAD", "OPTIONS"].contains req.method)
        && truthyO req.body
        && decide (0 < (match req.body with | some b => jsKeysLen b | none => 0)) then
        req.body
      else none }

/-- The body the gateway responds with: empty (`res.send()` on 204), JSON
(`res.json(data)`), or raw text (`res.send(text)`). -/
inductive RespBody where
  | empty
  | json (v : Jval)
  | text (s : String)
deriving DecidableEq

/-- The gateway's response to the client: status code and body. -/
structure GatewayResp where
  status : Nat
  body : RespBody
deriving DecidableEq

/-- The body of the gateway-originated 502: note the code's message is
`"Failed to reach TaskQuest API"`. -/
def proxyErrorBody : Jval :=
  .jobj [("error", .jobj [("code", .jstr "PROXY_ERROR"),
                          ("message", .jstr "Failed to reach TaskQuest API")])]

/-- What happened to the upstream `fetch` of the proxied request: the promise
rejected (`thrown`: connection error, timeout, DNS failure), or a response
arrived with a status, an optional `content-type` header, the result of
`response.json()` (`none` when the body fails to parse as JSON, which throws
into the outer catch), and the text body for the non-JSON branch. -/
inductive FetchOutcome where
  | thrown
  | resp (status : Nat) (contentType : Option String) (jsonBody : Option Jval) (textBody : String)
deriving DecidableEq

/-- `contentType?.includes("application/json")`. -/
def ctIncludesJson : Option String → Bool
  | some s => jsIncludes s "application/json"
  | none => false

/-- The feed-enrichment hook on a parsed JSON response body:
`if (path.startsWith("/v1/feed") && data?.data && Array.isArray(data.data))`
mutate the items of `data.data` in place, else leave the body alone. -/
def maybeEnrich (fetchTask : String → Option Jval) (path : String) (data : Jval) : Jval :=
  if jsStartsWith path "/v1/feed" then
    match data with
    | .jobj fs =>
        match getField fs "data" with
        | some (.jarr items) => .jobj (setKey fs "data" (.jarr (enrichFeedData fetchTask items)))
        | _ => data
    | _ => data
  else data

/-- The response side of `proxyToApi`, given the rewritten path and the fetch
outcome: a rejected fetch lands in the catch (502 `PROXY_ERROR`); a 204 is
forwarded empty; a JSON content-type body is parsed (a parse failure throws
into the same catch), possibly feed-enriched, and re-emitted with the upstream
status; anything else is forwarded as text with the upstream status. -/
def proxyToApi (fetchTask : String → Option Jval) (path : String)
    (outcome : FetchOutcome) : GatewayResp :=
  match outcome with
  | .thrown => ⟨502, .json proxyErrorBody⟩
  | .resp status ct jsonBody textBody =>
      if status = 204 then ⟨204, .empty⟩
      else if ctIncludesJson ct then
        match jsonBody with
        | some data => ⟨status, .json (maybeEnrich fetchTask path data)⟩
        | none => ⟨502, .json proxyErrorBody⟩
      else ⟨status, .text textBody⟩

/-- What the one `openai.chat.completions.create` call came to: `failure`
(network error or a reply whose content `JSON.parse` rejects — both throw into
the catch), or a parsed JSON reply; `reply none` is an absent/empty content
field, which the code defaults to `JSON.parse("{}")`. -/
inductive LlmOutcome where
  | failure
  | reply (result : Option Jval)
deriving DecidableEq

/-- The response of `/api/xp-suggest`: status, JSON body, and whether the
generative service was invoked. -/
structure XpResponse where
  status : Nat
  body : Jval
  llmCalled : Bool
deriving DecidableEq

def badRequestBody : Jval :=
  .jobj [("error", .jobj [("code", .jstr "BAD_REQUEST"),
                          ("message", .jstr "Title is required")])]

def aiErrorBody : Jval :=
  .jobj [("error", .jobj [("code", .jstr "AI_ERROR"),
                          ("message", .jstr "Failed to generate XP suggestion")])]

/-- JS `ToNumber` on parsed JSON values, `none` encoding `NaN` (`Math.min` and
`Math.max` propagate `NaN`, and `res.json` serialises `NaN` as `null`).
Strings are modelled for integral decimal numerals and the empty string;
the composite coercions are collapsed to `NaN`. -/
def jsToNum : Jval → Option Int
  | .jnull => some 0
  | .jbool b => some (if b then 1 else 0)
  | .jnum n => some n
  | .jstr s => if s = "" then some 0 else s.toInt?
  | .jarr _ => none
  | .jobj _ => none

/-- `Math.max(5, Math.min(50, x || 10))` on the possibly-absent
`result.suggestedXp`; `none` is the `NaN` outcome. -/
def clampXp (x : Option Jval) : Option Int :=
  match jsToNum (jsOr x (.jnum 10)) with
  | some n => some (max 5 (min 50 n))
  | none => none

/-- The 200 body `{suggestedXp, justification: result.justification || ""}`. -/
def xpSuggestBody (result : Jval) : Jval :=
  .jobj [("suggestedXp",
            match clampXp (propOf result "suggestedXp") with
            | some n => .jnum n
            | none => .jnull),
         ("justification", jsOr (propOf result "justification") (.jstr ""))]

/-- The `/api/xp-suggest` handler: reject a falsy `title` with 400 before any
generative call; otherwise call the service once and either fail with 500 or
answer 200 with the clamped suggestion. -/
def xpSuggest (reqBody : Jval) (llm : LlmOutcome) : XpResponse :=
  if !truthyO (propOf reqBody "title") then
    ⟨400, badRequestBody, false⟩
  else
    match llm with
    | .failure => ⟨500, aiErrorBody, true⟩
    | .reply r => ⟨200, xpSuggestBody (r.getD (.jobj [])), true⟩

/-- C9: a generative reply whose `suggestedXp` is the number 0 yields a
client-visible suggestion of 10 — the falsy zero is swallowed by the `|| 10`
default before clamping — and not the clamped-in-range value 5. -/
theorem xp_zero_suggestion_defaults :
    xpSuggest (.jobj [("title", .jstr "Sweep the floor")])
        (.reply (some (.jobj [("suggestedXp", .jnum 0)])))
      = ⟨200, .jobj [("suggestedXp", .jnum 10), ("justification", .jstr "")], true⟩
    ∧ max 5 (min 50 (0 : Int)) = 5 := by
  constructor
  · decide
  · decide

/-- C5 counterexample: the claim's rule clamps every parsed numeric suggestion
into [5, 50], so a numeric suggestion of 0 would yield 5; the code's
`result.suggestedXp || 10` replaces the falsy 0 by the default and yields 10. -/
theorem xp_clamp_zero_cex :
    (xpSuggest (.jobj [("title", .jstr "Dust shelves")])
        (.reply (some (.jobj [("suggestedXp", .jnum 0), ("justification", .jstr "tiny")])))).body
      = .jobj [("suggestedXp", .jnum 10), ("justification", .jstr "tiny")]
    ∧ max 5 (min 50 (0 : Int)) = 5
    ∧ Jval.jnum 10 ≠ .jnum 5 := by
  refine ⟨by decide, by decide, by decide⟩

theorem xpSuggestBody_suggestedXp (r : Jval) :
    propOf (xpSuggestBody r) "suggestedXp"
      = some (match clampXp (propOf r "suggestedXp") with
              | some n => Jval.jnum n
              | none => Jval.jnull) := rfl

theorem xpSuggestBody_justification (r : Jval) :
    propOf (xpSuggestBody r) "justification"
      = some (jsOr (propOf r "justification") (.jstr "")) := rfl

/-- C5 (amended): with a truthy title, the endpoint answers 200 with
`max(5, min(50, x))` for a present non-zero numeric suggestion `x`,
substitutes 10 when the suggestion is absent or the (falsy) number 0, and
defaults the justification to the empty string when absent. In particular
1000 clamps to 50, -5 clamps to 5, and an absent suggestion yields 10. -/
theorem xp_clamp_amended (reqBody r : Jval)
    (ht : truthyO (propOf reqBody "title") = true) :
    (∀ n : Int, propOf r "suggestedXp" = some (.jnum n) → n ≠ 0 →
       propOf (xpSuggest reqBody (.reply (some r))).body "suggestedXp"
         = some (.jnum (max 5 (min 50 n))))
    ∧ ((propOf r "suggestedXp" = none ∨ propOf r "suggestedXp" = some (.jnum 0)) →
       propOf (xpSuggest reqBody (.reply (some r))).body "suggestedXp"
         = some (.jnum 10))
    ∧ (propOf r "justification" = none →
       propOf (xpSuggest reqBody (.reply (some r))).body "justification"
         = some (.jstr ""))
    ∧ (xpSuggest reqBody (.reply (some r))).status = 200 := by
  have hx : xpSuggest reqBody (.reply (some r)) = ⟨200, xpSuggestBody r, true⟩ := by
    simp [xpSuggest, ht]
  refine ⟨?_, ?_, ?_, ?_⟩
  · intro n hn hnz
    have hv : clampXp (propOf r "suggestedXp") = some (max 5 (min 50 n)) := by
      rw [hn]
      simp [clampXp, jsOr, Jval.truthy, jsToNum, hnz]
    rw [hx, xpSuggestBody_suggestedXp, hv]
  · intro hn
    have e : max 5 (min 50 (10 : Int)) = 10 := by decide
    have hv : clampXp (propOf r "suggestedXp") = some 10 := by
      rcases hn with hn | hn <;> rw [hn] <;> simp [clampXp, jsOr, Jval.truthy, jsToNum, e]
    rw [hx, xpSuggestBody_suggestedXp, hv]
  · intro hj
    rw [hx, xpSuggestBody_justification, hj]
    rfl
  · rw [hx]

/-- C5 witness: a generative reply of 1000 is clamped to a client-visible 50. -/
theorem xp_clamp_amended_witness :
    propOf (xpSuggest (.jobj [("title", .jstr "Organize garage")])
        (.reply (some (.jobj [("suggestedXp", .jnum 1000)])))).body "suggestedXp"
      = some (.jnum 50) := by
  have h := (xp_clamp_amended (.jobj [("title", .jstr "Organize garage")])
      (.jobj [("suggestedXp", .jnum 1000)]) (by decide)).1 1000 rfl (by decide)
  have e : max 5 (min 50 (1000 : Int)) = 50 := by decide
  rw [e] at h
  exact h

/-- C7: a request whose body has a missing or empty `title` is answered 400
with the BAD_REQUEST body, and the generative service is never invoked. -/
theorem xp_missing_title_rejected (reqBody : Jval) (llm : LlmOutcome)
    (h : propOf reqBody "title" = none ∨ propOf reqBody "title" = some (.jstr "")) :
    xpSuggest reqBody llm = ⟨400, badRequestBody, false⟩ := by
  rcases h with h | h <;> simp [xpSuggest, h, truthyO, Jval.truthy]

/-- C7 witness: a body without a `title` key, at a failing generative call. -/
theorem xp_missing_title_rejected_witness :
    xpSuggest (.jobj []) .failure = ⟨400, badRequestBody, false⟩ :=
  xp_missing_title_rejected (.jobj []) .failure (Or.inl rfl)

theorem mem_of_idx {l : List Jval} {i : Nat} {a : Jval} (h : l[i]? = some a) : a ∈ l := by
  obtain ⟨hlt, hget⟩ := List.getElem?_eq_some.mp h
  exact hget ▸ List.getElem_mem hlt

/-- C1 (amended): a feed item whose payload carries a truthy `taskTitle` or
`title` value is returned by the enrichment pass exactly as it came in — no
payload key added, removed or changed, independently of the upstream oracle,
the item's position and the rest of the feed. -/
theorem enrich_preserves_truthy_title (f : String → Option Jval)
    (items : List Jval) (i : Nat) (it : Jval)
    (hit : items[i]? = some it)
    (h : truthyO (payloadProp it "taskTitle") = true ∨
         truthyO (payloadProp it "title") = true) :
    (enrichFeedData f items)[i]? = some it := by
  rw [enrichFeedData_getElem f items i it hit, enrichItem_of_truthy_title _ _ h]

/-- C1 witness: an item whose payload's `taskTitle` is a non-empty string is
untouched even though its task id resolves upstream. -/
theorem enrich_preserves_truthy_title_witness :
    (enrichFeedData (fun _ => some (.jobj [("title", .jstr "X")]))
        [.jobj [("taskId", .jstr "t9"),
                ("payload", .jobj [("taskTitle", .jstr "Done already")])]])[0]?
      = some (.jobj [("taskId", .jstr "t9"),
                ("payload", .jobj [("taskTitle", .jstr "Done already")])]) :=
  enrich_preserves_truthy_title _ _ 0 _ rfl (Or.inl (by decide))

/-- A feed item whose payload has a `taskTitle` key bound to the falsy empty
string. -/
def titledItem : Jval :=
  .jobj [("taskId", .jstr "t1"), ("payload", .jobj [("taskTitle", .jstr "")])]

/-- Upstream oracle resolving task `t1`. -/
def fetchT1 : String → Option Jval :=
  fun s => if s = "t1"
    then some (.jobj [("title", .jstr "Walk the dog"), ("rewardXp", .jnum 15)])
    else none

/-- C1 counterexample: the payload contains a `taskTitle` key (with value
`""`), yet the enrichment pass rewrites the item — the present key is
overwritten and `rewardXp`/`dueAt` are added — because the filter and the
merge guard test truthiness, not key presence. -/
theorem enrich_overwrites_empty_title_cex :
    payloadProp titledItem "taskTitle" = some (.jstr "")
    ∧ enrichFeedData fetchT1 [titledItem]
        = [.jobj [("taskId", .jstr "t1"),
                  ("payload", .jobj [("taskTitle", .jstr "Walk the dog"),
                                     ("rewardXp", .jnum 15), ("dueAt", .jnull)])]]
    ∧ enrichFeedData fetchT1 [titledItem] ≠ [titledItem] := by
  refine ⟨rfl, by decide, by decide⟩

theorem issuedTaskFetches_eq (items : List Jval) :
    issuedTaskFetches items
      = if (items.filter needsEnrich).length > 0
        then jsSetDedup (taskIdValsOf (items.filter needsEnrich)) else [] := rfl

/-- One of five identical feed items referencing task `t42`. -/
def feedItem42 : Jval :=
  .jobj [("taskId", .jstr "t42"), ("payload", .jobj [])]

/-- C4: the issued task-detail fetches carry no duplicate task id (at most one
upstream request per distinct referenced id), every fetched id is referenced
by some item needing enrichment, and for the concrete feed of five items all
referencing `t42` exactly one fetch (for `t42`) is issued. -/
theorem enrich_dedup (items : List Jval) :
    (issuedTaskFetches items).Nodup
    ∧ (∀ tid ∈ issuedTaskFetches items,
        ∃ it ∈ items, needsEnrich it = true ∧ propOf it "taskId" = some tid)
    ∧ issuedTaskFetches (List.replicate 5 feedItem42) = [.jstr "t42"] := by
  refine ⟨?_, ?_, by decide⟩
  · rw [issuedTaskFetches_eq]
    split
    · exact nodup_jsSetDedup _
    · exact List.nodup_nil
  · intro tid htid
    rw [issuedTaskFetches_eq] at htid
    split at htid
    · rw [mem_jsSetDedup] at htid
      obtain ⟨it, hitmem, hval⟩ := List.mem_map.mp htid
      have hfil := List.mem_filter.mp hitmem
      have hq := hfil.2
      have htr : truthyO (propOf it "taskId") = true := by
        simp only [needsEnrich, Bool.and_eq_true] at hq
        exact hq.1.1.1
      refine ⟨it, hfil.1, hfil.2, ?_⟩
      cases hp : propOf it "taskId" with
      | none => rw [hp] at htr; exact absurd htr (by simp [truthyO])
      | some v =>
          rw [hp] at hval
          simp only [Option.getD_some] at hval
          rw [hval]
    · cases htid

/-- C4 witness: in the five-identical-items feed, the single fetched id `t42`
is referenced by an item needing enrichment. -/
theorem enrich_dedup_witness :
    ∃ it ∈ List.replicate 5 feedItem42,
      needsEnrich it = true ∧ propOf it "taskId" = some (.jstr "t42") := by
  apply (enrich_dedup (List.replicate 5 feedItem42)).2.1
  decide

/-- C10: a feed item with a truthy task id and no `payload` field at all is
never selected by the enrichment filter (`item.payload` is falsy); yet when
the same task id resolved because another item qualified, the merge pass
(whose guard uses optional chaining) still enriches it, setting its payload
to an object with exactly the keys `taskTitle`, `rewardXp`, `dueAt`. -/
theorem payloadless_item_enrichment (f : String → Option Jval) (items : List Jval)
    (i j : Nat) (fsi : List (String × Jval)) (itj tid task : Jval)
    (hi : items[i]? = some (.jobj fsi))
    (hid : getField fsi "taskId" = some tid)
    (htid : tid.truthy = true)
    (hnop : getField fsi "payload" = none)
    (hj : items[j]? = some itj)
    (hjq : needsEnrich itj = true)
    (hjid : propOf itj "taskId" = some tid)
    (hfetch : f (jsToString tid) = some task)
    (htask : task.truthy = true) :
    needsEnrich (.jobj fsi) = false
    ∧ (enrichFeedData f items)[i]?
        = some (.jobj (setKey fsi "payload"
            (.jobj [("taskTitle", jsOr (propOf task "title") (.jstr "")),
                    ("rewardXp", jsOr (propOf task "rewardXp") (.jnum 0)),
                    ("dueAt", jsOr (propOf task "dueAt") .jnull)]))) := by
  constructor
  · simp [needsEnrich, propOf, hnop, truthyO]
  · have hmemj : itj ∈ items := mem_of_idx hj
    have hmem := taskId_mem_dedup items itj tid hmemj hjq hjid
    have htd : tdOf f items (jsToString tid) = some task := by
      rw [tdOf_eq_fetch f items tid hmem, hfetch]
    rw [enrichFeedData_getElem f items i _ hi,
        enrichItem_enrich (tdOf f items) fsi tid task hid htid htd htask
          (by rw [hnop]; rfl) (by rw [hnop]; rfl)]
    rw [hnop]
    rfl

/-- C10 witness: a payload-less item next to a qualifying item with the same
task id gets the three-key payload. -/
theorem payloadless_item_enrichment_witness :
    needsEnrich (.jobj [("taskId", .jstr "t7")]) = false
    ∧ (enrichFeedData (fun s => if s = "t7" then some (.jobj [("title", .jstr "Mow lawn")]) else none)
        [.jobj [("taskId", .jstr "t7")],
         .jobj [("taskId", .jstr "t7"), ("payload", .jobj [])]])[0]?
      = some (.jobj [("taskId", .jstr "t7"),
                     ("payload", .jobj [("taskTitle", .jstr "Mow lawn"),
                                        ("rewardXp", .jnum 0), ("dueAt", .jnull)])]) := by
  have h := payloadless_item_enrichment
      (fun s => if s = "t7" then some (.jobj [("title", .jstr "Mow lawn")]) else none)
      [.jobj [("taskId", .jstr "t7")],
       .jobj [("taskId", .jstr "t7"), ("payload", .jobj [])]]
      0 1 [("taskId", .jstr "t7")]
      (.jobj [("taskId", .jstr "t7"), ("payload", .jobj [])])
      (.jstr "t7") (.jobj [("title", .jstr "Mow lawn")])
      rfl rfl (by decide) rfl rfl (by decide) rfl (by decide) (by decide)
  refine ⟨h.1, ?_⟩
  rw [h.2]
  decide

/-- C2: per-task fetches are fault-isolated. If the fetch for the task id of
item `i` failed (thrown or non-ok, i.e. the oracle yields `none`) that item is
returned with its payload — indeed the whole item — unchanged; if item `j`
qualifies and its task id fetched successfully, item `j` is enriched; and the
overall feed response keeps the original upstream status code whatever the
per-task oracle did: a per-task failure is never surfaced. -/
theorem enrich_fault_isolation (f : String → Option Jval) (items : List Jval)
    (i j : Nat) (iti : Jval) (fsj : List (String × Jval))
    (tidX tidY taskY : Jval)
    (hi : items[i]? = some iti)
    (hXid : propOf iti "taskId" = some tidX)
    (hXfail : f (jsToString tidX) = none)
    (hj : items[j]? = some (.jobj fsj))
    (hjq : needsEnrich (.jobj fsj) = true)
    (hYid : getField fsj "taskId" = some tidY)
    (hYok : f (jsToString tidY) = some taskY)
    (hYtr : taskY.truthy = true) :
    (enrichFeedData f items)[i]? = some iti
    ∧ (enrichFeedData f items)[j]?
        = some (.jobj (setKey fsj "payload" (mergedPayload (getField fsj "payload") taskY)))
    ∧ ∀ (status : Nat) (ct : Option String) (tb : String) (data : Jval),
        (proxyToApi f "/v1/feed" (.resp status ct (some data) tb)).status = status := by
  refine ⟨?_, ?_, ?_⟩
  · rw [enrichFeedData_getElem f items i iti hi,
        enrichItem_of_detail_none (tdOf f items) iti ?_]
    rw [hXid]
    show tdOf f items (jsToString tidX) = none
    exact tdOf_none_of_fetch_none f items _ hXfail
  · have hq := hjq
    simp only [needsEnrich, Bool.and_eq_true] at hq
    obtain ⟨⟨⟨h1, h2⟩, h3⟩, h4⟩ := hq
    have htidY : tidY.truthy = true := by
      have : truthyO (propOf (Jval.jobj fsj) "taskId") = true := h1
      rw [show propOf (Jval.jobj fsj) "taskId" = getField fsj "taskId" from rfl, hYid] at this
      exact this
    have hmem := taskId_mem_dedup items (.jobj fsj) tidY (mem_of_idx hj) hjq hYid
    have htd : tdOf f items (jsToString tidY) = some taskY := by
      rw [tdOf_eq_fetch f items tidY hmem, hYok]
    rw [enrichFeedData_getElem f items j _ hj,
        enrichItem_enrich (tdOf f items) fsj tidY taskY hYid htidY htd hYtr
          (by simpa using h3) (by simpa using h4)]
  · intro status ct tb data
    by_cases h204 : status = 204
    · subst h204; rfl
    · simp only [proxyToApi, if_neg h204]
      split <;> rfl

/-- Item whose task-detail fetch will fail. -/
def itemX : Jval := .jobj [("taskId", .jstr "bad"), ("payload", .jobj [])]

/-- Item whose task-detail fetch will succeed. -/
def itemY : Jval := .jobj [("taskId", .jstr "good"), ("payload", .jobj [])]

/-- Oracle failing on `bad` and succeeding on `good`. -/
def fetchXY : String → Option Jval :=
  fun s => if s = "good"
    then some (.jobj [("title", .jstr "Y task"), ("rewardXp", .jnum 20)])
    else none

/-- C2 witness: with one failing and one succeeding task id, the failing item
is unchanged, the succeeding one enriched, and a 200 feed stays a 200. -/
theorem enrich_fault_isolation_witness :
    (enrichFeedData fetchXY [itemX, itemY])[0]? = some itemX
    ∧ (enrichFeedData fetchXY [itemX, itemY])[1]?
        = some (.jobj [("taskId", .jstr "good"),
                       ("payload", .jobj [("taskTitle", .jstr "Y task"),
                                          ("rewardXp", .jnum 20), ("dueAt", .jnull)])])
    ∧ (proxyToApi fetchXY "/v1/feed"
        (.resp 200 (some "application/json")
          (some (.jobj [("data", .jarr [itemX, itemY])])) "")).status = 200 := by
  have h := enrich_fault_isolation fetchXY [itemX, itemY] 0 1 itemX
      [("taskId", .jstr "good"), ("payload", .jobj [])]
      (.jstr "bad") (.jstr "good") (.jobj [("title", .jstr "Y task"), ("rewardXp", .jnum 20)])
      rfl rfl (by decide) rfl (by decide) rfl (by decide) (by decide)
  refine ⟨h.1, ?_, h.2.2 200 (some "application/json") "" (.jobj [("data", .jarr [itemX, itemY])])⟩
  rw [h.2.1]
  decide

/-- A feed item of the shape the enrichment code handles without the JS
runtime throwing or spreading index keys: an object whose `payload`, when
present, is null or an object (the feed data model: `payload: map<string,any>`). -/
def itemOk : Jval → Bool
  | .jobj fs =>
      match getField fs "payload" with
      | none => true
      | some .jnull => true
      | some (.jobj _) => true
      | some _ => false
  | _ => false

theorem itemOk_payload_cases (fs : List (String × Jval))
    (hok : itemOk (.jobj fs) = true) :
    getField fs "payload" = none ∨ getField fs "payload" = some .jnull
      ∨ ∃ pfs, getField fs "payload" = some (.jobj pfs) := by
  simp only [itemOk] at hok
  cases hp : getField fs "payload" with
  | none => exact Or.inl rfl
  | some v =>
      cases v with
      | jnull => exact Or.inr (Or.inl rfl)
      | jobj pfs => exact Or.inr (Or.inr ⟨pfs, rfl⟩)
      | jbool b => rw [hp] at hok; simp at hok
      | jnum n => rw [hp] at hok; simp at hok
      | jstr s => rw [hp] at hok; simp at hok
      | jarr xs => rw [hp] at hok; simp at hok

theorem getField_spread_eq_chain (pO : Option Jval)
    (hok : pO = none ∨ pO = some .jnull ∨ ∃ pfs, pO = some (.jobj pfs))
    (k : String) :
    getField (spreadFields pO) k = chainProp pO k := by
  rcases hok with rfl | rfl | ⟨pfs, rfl⟩ <;> rfl

/-- Frame property of one merge-loop iteration: no field outside `payload`
changes, and inside the payload no key outside the three merged ones changes. -/
theorem enrichItem_frame (td : String → Option Jval) (it : Jval)
    (hok : itemOk it = true) :
    (∀ k, k ≠ "payload" → propOf (enrichItem td it) k = propOf it k)
    ∧ (∀ k, k ≠ "taskTitle" → k ≠ "rewardXp" → k ≠ "dueAt" →
        payloadProp (enrichItem td it) k = payloadProp it k) := by
  cases it with
  | jobj fs =>
      by_cases hc : (truthyO (getField fs "taskId")
          && truthyO (detailOf td (getField fs "taskId"))
          && !truthyO (chainProp (getField fs "payload") "taskTitle")
          && !truthyO (chainProp (getField fs "payload") "title")) = true
      · cases hdet : detailOf td (getField fs "taskId") with
        | none =>
            rw [hdet] at hc
            simp [truthyO] at hc
        | some task =>
            simp only [Bool.and_eq_true] at hc
            obtain ⟨⟨⟨c1, c2⟩, c3⟩, c4⟩ := hc
            rw [hdet] at c2
            have heq : enrichItem td (.jobj fs)
                = .jobj (setKey fs "payload" (mergedPayload (getField fs "payload") task)) := by
              simp [enrichItem, hdet, c1, c2, c3, c4]
            rw [heq]
            constructor
            · intro k hk
              exact getField_setKey_ne fs "payload" k _ hk
            · intro k h1 h2 h3
              show chainProp (getField (setKey fs "payload"
                  (mergedPayload (getField fs "payload") task)) "payload") k
                = chainProp (getField fs "payload") k
              rw [getField_setKey_self fs "payload" _]
              show getField (setKey (setKey (setKey (spreadFields (getField fs "payload"))
                  "taskTitle" (jsOr (propOf task "title") (.jstr "")))
                  "rewardXp" (jsOr (propOf task "rewardXp") (.jnum 0)))
                  "dueAt" (jsOr (propOf task "dueAt") .jnull)) k
                = chainProp (getField fs "payload") k
              rw [getField_setKey_ne _ _ _ _ h3, getField_setKey_ne _ _ _ _ h2,
                  getField_setKey_ne _ _ _ _ h1]
              exact getField_spread_eq_chain _ (itemOk_payload_cases fs hok) k
      · have heq : enrichItem td (.jobj fs) = .jobj fs := by
          simp only [enrichItem, hc, if_false]
          simp [hc]
        rw [heq]
        exact ⟨fun _ _ => rfl, fun _ _ _ _ => rfl⟩
  | jnull => simp [itemOk] at hok
  | jbool b => simp [itemOk] at hok
  | jnum n => simp [itemOk] at hok
  | jstr s => simp [itemOk] at hok
  | jarr xs => simp [itemOk] at hok

/-- C3: the enrichment pass never changes the item count, returns the items in
their original order (the output at each index is derived from the input at
the same index), never touches an item field outside `payload`, and inside the
payload changes no key other than `taskTitle`, `rewardXp` and `dueAt`. -/
theorem enrich_frame (f : String → Option Jval) (items : List Jval)
    (hok : ∀ it ∈ items, itemOk it = true) :
    (enrichFeedData f items).length = items.length
    ∧ ∀ (i : Nat) (it : Jval), items[i]? = some it →
        ∃ out : Jval, (enrichFeedData f items)[i]? = some out
          ∧ (∀ k, k ≠ "payload" → propOf out k = propOf it k)
          ∧ (∀ k, k ≠ "taskTitle" → k ≠ "rewardXp" → k ≠ "dueAt" →
              payloadProp out k = payloadProp it k) := by
  refine ⟨enrichFeedData_length f items, ?_⟩
  intro i it hit
  exact ⟨enrichItem (tdOf f items) it, enrichFeedData_getElem f items i it hit,
    enrichItem_frame (tdOf f items) it (hok it (mem_of_idx hit))⟩

/-- C3 witness: a two-item feed (one enrichable, one with an extra payload
key) keeps its length, its order, the extra payload key and the foreign field. -/
theorem enrich_frame_witness :
    ∃ out : Jval, (enrichFeedData fetchT1
        [.jobj [("id", .jstr "f1"), ("taskId", .jstr "t1"),
                ("payload", .jobj [("note", .jstr "keep")])]])[0]? = some out
      ∧ propOf out "id" = propOf (.jobj [("id", .jstr "f1"), ("taskId", .jstr "t1"),
                ("payload", .jobj [("note", .jstr "keep")])]) "id"
      ∧ payloadProp out "note" = payloadProp (.jobj [("id", .jstr "f1"), ("taskId", .jstr "t1"),
                ("payload", .jobj [("note", .jstr "keep")])]) "note" := by
  obtain ⟨out, h1, h2, h3⟩ :=
    (enrich_frame fetchT1
      [.jobj [("id", .jstr "f1"), ("taskId", .jstr "t1"),
              ("payload", .jobj [("note", .jstr "keep")])]] (by decide)).2 0 _ rfl
  exact ⟨out, h1, h2 "id" (by decide), h3 "note" (by decide) (by decide) (by decide)⟩

/-- C6 counterexample: on a thrown upstream fetch the code answers 502 with
the message "Failed to reach TaskQuest API", not the claimed exact body with
message "Failed to reach upstream API". -/
theorem proxy_error_message_cex :
    proxyToApi (fun _ => none) "/v1/tasks" .thrown
      = ⟨502, .json (.jobj [("error", .jobj [("code", .jstr "PROXY_ERROR"),
          ("message", .jstr "Failed to reach TaskQuest API")])])⟩
    ∧ proxyToApi (fun _ => none) "/v1/tasks" .thrown
      ≠ ⟨502, .json (.jobj [("error", .jobj [("code", .jstr "PROXY_ERROR"),
          ("message", .jstr "Failed to reach upstream API")])])⟩ := by
  refine ⟨rfl, by decide⟩

/-- C6 (amended): a thrown upstream fetch yields exactly the 502
`PROXY_ERROR` body (message "Failed to reach TaskQuest API"); the same body is
the only error the proxy path originates — it is also produced when a JSON
content-type body fails to parse, since `response.json()` throws into the same
catch; every answered upstream response has its status passed through, a
non-JSON body is forwarded verbatim as text, and a parsed JSON body of a
non-feed path is re-emitted unmodified. -/
theorem proxy_error_amended (f : String → Option Jval) (path : String)
    (status : Nat) (ct : Option String) (jb : Option Jval) (tb : String) :
    proxyToApi f path .thrown = ⟨502, .json proxyErrorBody⟩
    ∧ (∀ data, jb = some data →
        (proxyToApi f path (.resp status ct jb tb)).status = status)
    ∧ (ctIncludesJson ct = false → status ≠ 204 →
        proxyToApi f path (.resp status ct jb tb) = ⟨status, .text tb⟩)
    ∧ (ctIncludesJson ct = true → jsStartsWith path "/v1/feed" = false →
        status ≠ 204 → ∀ data, jb = some data →
        proxyToApi f path (.resp status ct jb tb) = ⟨status, .json data⟩)
    ∧ (ctIncludesJson ct = true → jb = none → status ≠ 204 →
        proxyToApi f path (.resp status ct jb tb) = ⟨502, .json proxyErrorBody⟩) := by
  refine ⟨rfl, ?_, ?_, ?_, ?_⟩
  · intro data hdata
    subst hdata
    by_cases h204 : status = 204
    · subst h204; rfl
    · simp only [proxyToApi, if_neg h204]
      split <;> rfl
  · intro hct h204
    simp [proxyToApi, if_neg h204, hct]
  · intro hct hfeed h204 data hdata
    subst hdata
    simp [proxyToApi, if_neg h204, hct, maybeEnrich, hfeed]
  · intro hct hnone h204
    subst hnone
    simp [proxyToApi, if_neg h204, hct]

/-- C6 witness: the thrown case, and a 404 HTML error page passed through with
its status and body. -/
theorem proxy_error_amended_witness :
    proxyToApi (fun _ => none) "/v1/x" .thrown = ⟨502, .json proxyErrorBody⟩
    ∧ proxyToApi (fun _ => none) "/v1/x" (.resp 404 (some "text/html") none "gone")
        = ⟨404, .text "gone"⟩ := by
  refine ⟨(proxy_error_amended (fun _ => none) "/v1/x" 404 (some "text/html") none "gone").1,
    (proxy_error_amended (fun _ => none) "/v1/x" 404 (some "text/html") none "gone").2.2.1
      (by decide) (by decide)⟩

theorem isPrefixOf_append_self (l r : List Char) : l.isPrefixOf (l ++ r) = true := by
  induction l with
  | nil => cases r <;> rfl
  | cons c cs ih => simp [List.isPrefixOf, ih]

theorem listReplaceFirst_of_prefixed (pat rep rest : List Char) (hne : pat ≠ []) :
    listReplaceFirst (pat ++ rest) pat rep = rep ++ rest := by
  cases pat with
  | nil => exact absurd rfl hne
  | cons c cs =>
      show listReplaceFirst (c :: (cs ++ rest)) (c :: cs) rep = rep ++ rest
      simp only [listReplaceFirst]
      rw [if_pos (show (c :: cs).isPrefixOf (c :: (cs ++ rest)) = true from
            isPrefixOf_append_self (c :: cs) rest)]
      congr 1
      exact List.drop_left (c :: cs) rest

theorem jsReplaceFirst_prefixed (rest : String) :
    jsReplaceFirst ("/api/v1" ++ rest) "/api/v1" "/v1" = "/v1" ++ rest := by
  apply String.ext
  show listReplaceFirst ("/api/v1" ++ rest).toList "/api/v1".toList "/v1".toList
      = ("/v1" ++ rest).data
  rw [show ("/api/v1" ++ rest).toList = "/api/v1".toList ++ rest.toList from
        String.data_append _ _,
      listReplaceFirst_of_prefixed _ _ _ (by decide)]
  exact (String.data_append _ _).symm

theorem afterFirstChar_not_mem (c : Char) (l : List Char) (h : c ∉ l) :
    afterFirstChar c l = none := by
  induction l with
  | nil => rfl
  | cons x xs ih =>
      have hx : ¬ x = c := fun he => h (he ▸ List.mem_cons_self x xs)
      simp only [afterFirstChar, if_neg hx]
      exact ih (fun hm => h (List.mem_cons_of_mem _ hm))

theorem afterFirstChar_append (c : Char) (p q : List Char) (hp : c ∉ p) :
    afterFirstChar c (p ++ c :: q) = some q := by
  induction p with
  | nil => simp [afterFirstChar]
  | cons x xs ih =>
      have hx : ¬ x = c := fun he => hp (he ▸ List.mem_cons_self x xs)
      simp only [List.cons_append, afterFirstChar, if_neg hx]
      exact ih (fun hm => hp (List.mem_cons_of_mem _ hm))

theorem queryStringOf_none (u : String) (h : ('?') ∉ u.toList) :
    queryStringOf u = "" := by
  unfold queryStringOf
  rw [afterFirstChar_not_mem _ _ h]

theorem queryStringOf_append (p q : String) (hp : ('?') ∉ p.toList) :
    queryStringOf (p ++ "?" ++ q) = "?" ++ q := by
  unfold queryStringOf
  have hsplit : (p ++ "?" ++ q).toList = p.toList ++ ('?') :: q.toList := by
    rw [show (p ++ "?" ++ q).toList = (p ++ "?").toList ++ q.toList from
          String.data_append _ _,
        show (p ++ "?").toList = p.toList ++ "?".toList from String.data_append _ _,
        List.append_assoc]
    rfl
  rw [hsplit, afterFirstChar_append _ _ _ hp]
  rfl

/-- Inbound request with a present-but-empty `Authorization` header. -/
def reqAuthEmpty : Req :=
  { method := "GET", path := "/api/v1/feed", originalUrl := "/api/v1/feed",
    authorization := some "", body := none }

/-- Inbound POST whose middleware-parsed body is a non-empty JSON array. -/
def reqArrayBody : Req :=
  { method := "POST", path := "/api/v1/tasks", originalUrl := "/api/v1/tasks",
    authorization := none, body := some (.jarr [.jnum 1]) }

/-- C8 counterexample: an empty-string `Authorization` header is present on
the inbound request yet not forwarded (the code tests truthiness), and a body
is attached for a parsed JSON array — which is not a JSON object — because the
code tests `Object.keys(req.body).length > 0`, not objecthood. -/
theorem outbound_request_cex :
    reqAuthEmpty.authorization.isSome = true
    ∧ (buildOutbound "http://localhost:3000" reqAuthEmpty).auth = none
    ∧ (buildOutbound "http://localhost:3000" reqArrayBody).body = some (.jarr [.jnum 1])
    ∧ (Jval.jarr [.jnum 1]).isObj = false := by
  refine ⟨rfl, by decide, by decide, rfl⟩

/-- C8 (amended): the outbound request is assembled as follows. The leading
`/api/v1` of the inbound path is replaced by `/v1` and the query string —
everything from the first `?` of the original URL — is appended verbatim (no
`?` in the URL means no query string); the `Authorization` header is forwarded
unchanged exactly when present and non-empty (an empty-string header is
present but falsy and is dropped) and is never synthesized; `Content-Type` is
always `application/json`; and the re-serialized JSON body is attached exactly
when the method is none of GET/HEAD/OPTIONS and the parsed body is truthy with
positive `Object.keys` length — non-empty objects, but also non-empty arrays
and strings. -/
theorem outbound_request_amended (apiUrl rest : String) (req : Req)
    (hp : req.path = "/api/v1" ++ rest) :
    ((buildOutbound apiUrl req).url
        = apiUrl ++ ("/v1" ++ rest) ++ queryStringOf req.originalUrl)
    ∧ (∀ p q : String, req.originalUrl = p ++ "?" ++ q → ('?') ∉ p.toList →
        queryStringOf req.originalUrl = "?" ++ q)
    ∧ (('?') ∉ req.originalUrl.toList → queryStringOf req.originalUrl = "")
    ∧ (∀ a, req.authorization = some a → a ≠ "" →
        (buildOutbound apiUrl req).auth = some a)
    ∧ (req.authorization = none → (buildOutbound apiUrl req).auth = none)
    ∧ (req.authorization = some "" → (buildOutbound apiUrl req).auth = none)
    ∧ ((buildOutbound apiUrl req).contentType = "application/json")
    ∧ (∀ b : Jval, (buildOutbound apiUrl req).body = some b ↔
        (req.body = some b
          ∧ req.method ∉ (["GET", "HEAD", "OPTIONS"] : List String)
          ∧ b.truthy = true ∧ 0 < jsKeysLen b)) := by
  refine ⟨?_, ?_, ?_, ?_, ?_, ?_, rfl, ?_⟩
  · show apiUrl ++ jsReplaceFirst req.path "/api/v1" "/v1" ++ queryStringOf req.originalUrl
        = apiUrl ++ ("/v1" ++ rest) ++ queryStringOf req.originalUrl
    rw [hp, jsReplaceFirst_prefixed]
  · intro p q hu hq
    rw [hu]
    exact queryStringOf_append p q hq
  · exact queryStringOf_none req.originalUrl
  · intro a ha hne
    show (match req.authorization with
          | some a => if a = "" then none else some a
          | none => none) = some a
    rw [ha]
    exact if_neg hne
  · intro ha
    show (match req.authorization with
          | some a => if a = "" then none else some a
          | none => none) = none
    rw [ha]
  · intro ha
    show (match req.authorization with
          | some a => if a = "" then none else some a
          | none => none) = none
    rw [ha]
    rfl
  · intro b
    have hbody : (buildOutbound apiUrl req).body
        = if !(["GET", "HEAD", "OPTIONS"].contains req.method)
            && truthyO req.body
            && decide (0 < (match req.body with | some b => jsKeysLen b | none => 0))
          then req.body else none := rfl
    constructor
    · intro hb
      rw [hbody] at hb
      by_cases hcond : (!(["GET", "HEAD", "OPTIONS"].contains req.method)
          && truthyO req.body
          && decide (0 < (match req.body with | some b => jsKeysLen b | none => 0))) = true
      · rw [if_pos hcond] at hb
        simp only [Bool.and_eq_true, Bool.not_eq_true'] at hcond
        obtain ⟨⟨hm, ht⟩, hk⟩ := hcond
        refine ⟨hb, ?_, ?_, ?_⟩
        · intro hmem
          have hc : (["GET", "HEAD", "OPTIONS"] : List String).contains req.method = true :=
            List.elem_eq_true_of_mem hmem
          rw [hc] at hm
          cases hm
        · rw [hb] at ht
          exact ht
        · rw [hb] at hk
          exact of_decide_eq_true hk
      · rw [if_neg hcond] at hb
        cases hb
    · rintro ⟨hb, hm, ht, hk⟩
      rw [hbody, hb]
      rw [if_pos]
      simp only [Bool.and_eq_true, Bool.not_eq_true']
      refine ⟨⟨?_, ht⟩, decide_eq_true hk⟩
      cases hc : (["GET", "HEAD", "OPTIONS"] : List String).contains req.method
      · rfl
      · exact absurd (List.mem_of_elem_eq_true hc) hm

/-- Concrete inbound POST: path prefix, query, auth and body all present. -/
def reqPost : Req :=
  { method := "POST", path := "/api/v1/tasks",
    originalUrl := "/api/v1/tasks?limit=5&x=1",
    authorization := some "Bearer tok",
    body := some (.jobj [("title", .jstr "T")]) }

/-- C8 witness: the outbound URL swaps `/api/v1` for `/v1` and keeps the query
exactly; the auth header and the JSON body are forwarded. -/
theorem outbound_request_amended_witness :
    (buildOutbound "http://localhost:3000" reqPost).url
      = "http://localhost:3000" ++ ("/v1" ++ "/tasks") ++ queryStringOf reqPost.originalUrl
    ∧ queryStringOf reqPost.originalUrl = "?" ++ "limit=5&x=1"
    ∧ (buildOutbound "http://localhost:3000" reqPost).auth = some "Bearer tok"
    ∧ (buildOutbound "http://localhost:3000" reqPost).body
        = some (.jobj [("title", .jstr "T")]) := by
  have h := outbound_request_amended "http://localhost:3000" "/tasks" reqPost rfl
  exact ⟨h.1, h.2.1 "/api/v1/tasks" "limit=5&x=1" rfl (by decide),
    h.2.2.2.1 "Bearer tok" rfl (by decide),
    (h.2.2.2.2.2.2.2 (.jobj [("title", .jstr "T")])).mpr
      ⟨rfl, by decide, by decide, by decide⟩⟩
